import Mathlib

/-!
# Verification of the zkSync state-restoration and rollback subsystem

Shallow embedding of the Block Reverter (`core/bin/block_revert/src/main.rs`)
and the Data Restore Driver (`core/bin/data_restore/src/data_restore_driver.rs`),
together with the parts of `core/lib/types/src/tokens.rs` they use.

External I/O (chain RPC, database rows, signing) is modelled by explicit
environment records; `u32` arithmetic is modelled with explicit `% 2^32`.
-/

namespace BlockRevert

/-- The modulus of Rust `u32` arithmetic. -/
def U32MOD : Nat := 4294967296

/-- Rust release-mode wrapping subtraction on `u32` values (`a - b`). -/
def sub32 (a b : Nat) : Nat := (a % U32MOD + U32MOD - b % U32MOD) % U32MOD

/-- Rust wrapping addition on `u32` values (`a + b`). -/
def add32 (a b : Nat) : Nat := (a + b) % U32MOD

/-- Modelled from the spec: `zksync_types::block::Block` is not under `src/`;
the reverter only moves stored blocks around, so a block is represented by its
block number plus an abstract payload standing for all remaining fields. -/
structure Block where
  block_number : Nat
  payload : Nat
deriving DecidableEq, Repr

/-- Modelled from the spec: "Stored block info: the minimal descriptor of a
committed L2 block required by the on-chain `revertBlocks` ABI"
(`zksync_types::aggregated_operations::stored_block_info` is not under `src/`).
The descriptor is a function of the stored block. -/
structure StoredBlockInfo where
  of_block : Block
deriving DecidableEq, Repr

/-- `stored_block_info`, the descriptor of one stored block. -/
def stored_block_info (b : Block) : StoredBlockInfo := ⟨b⟩

/-- Rust's `(a..=b).rev()`: the integers from `b` down to `a`; empty when `a > b`. -/
def revRangeIncl (a b : Nat) : List Nat :=
  if a ≤ b then (List.range' a (b - a + 1)).reverse else []

/-- The body of the `for` loop of `get_blocks`: fetch each block number in
order, aborting with the panic message `"No block N in storage"` at the first
number that has no stored row. -/
def get_blocks_go (storage : Nat → Option Block) : List Nat → Except String (List Block)
  | [] => Except.ok []
  | n :: rest =>
    match storage n with
    | Option.none => Except.error ("No block " ++ toString n ++ " in storage")
    | Option.some b =>
      match get_blocks_go storage rest with
      | Except.ok bs => Except.ok (b :: bs)
      | Except.error e => Except.error e

/-- `get_blocks` (main.rs:181-199): iterate over
`(last_commited_block - blocks_to_revert + 1 ..= last_commited_block).rev()`
(the subtraction and addition being `u32` operations) and fetch each block
from storage, panicking when a block is absent. -/
def get_blocks (storage : Nat → Option Block) (last_commited_block blocks_to_revert : Nat) :
    Except String (List Block) :=
  let last_block_to_revert := add32 (sub32 last_commited_block blocks_to_revert) 1
  get_blocks_go storage (revRangeIncl last_block_to_revert last_commited_block)

/-- A signed `revertBlocks` transaction: the encoded call (function name and
argument array) plus the gas limit option passed to `sign_prepared_tx`. -/
structure SignedTx where
  fn : String
  args : List StoredBlockInfo
  gas_limit : Nat
deriving DecidableEq, Repr

/-- Outcomes of the external calls made by `revert_blocks_on_contract` and
`send_raw_tx_and_wait_confirmation`: signing, raw-tx submission, the receipt
poll (`none` = no receipt before the 1000 s deadline, `some status` = a receipt
with that success status), the operator-nonce fetch/store, and the decoded
failure reason used when the receipt status is not success. -/
structure ContractEnv where
  sign_ok : Bool
  send_ok : Bool
  receipt : Option Bool
  nonce_fetch_ok : Bool
  failure_reason : String
deriving DecidableEq, Repr

/-- How a run of the tool ends: `ok` (exit code 0), `err` (an `anyhow` error,
from `bail!` / `ensure!` / `?`), or `panic` (a Rust panic, from `expect` /
`panic!`). -/
inductive RunOutcome
  | ok
  | err (msg : String)
  | panic (msg : String)
deriving DecidableEq, Repr

/-- The externally visible effects of a run: the raw transaction submitted to
the chain (if any) and the `last_block` of a committed storage revert (if any). -/
structure Effects where
  sent_tx : Option SignedTx
  storage_reverted : Option Nat
deriving DecidableEq, Repr

/-- No contract call, no storage mutation. -/
def Effects.empty : Effects := ⟨Option.none, Option.none⟩

/-- `revert_blocks_on_contract` (main.rs:156-178): encode
`revertBlocks(stored_block_info(blocks))`, sign with
`gas = 200000 + 15000 * blocks.len()`, submit and await the receipt
(`send_raw_tx_and_wait_confirmation`, main.rs:126-153), then fetch-and-store
the next operator nonce (`expect` on failure), and finally check the receipt
status. Returns the outcome together with the submitted transaction, if the
submission happened. -/
def revert_blocks_on_contract (env : ContractEnv) (blocks : List Block) :
    RunOutcome × Option SignedTx :=
  let tx_arg := blocks.map stored_block_info
  let gas_limit := 200000 + 15000 * blocks.length
  if ¬ env.sign_ok then (RunOutcome.err "Revert blocks send err", Option.none)
  else
    let signed : SignedTx := ⟨"revertBlocks", tx_arg, gas_limit⟩
    if ¬ env.send_ok then (RunOutcome.err "Failed to send raw tx", Option.none)
    else
      match env.receipt with
      | Option.none => (RunOutcome.err "Operation timeout", Option.some signed)
      | Option.some status =>
        if ¬ env.nonce_fetch_ok then
          (RunOutcome.panic "Rootstock tx has been sent but updating operator nonce in storage has failed. You need to update it manually",
           Option.some signed)
        else if status then (RunOutcome.ok, Option.some signed)
        else (RunOutcome.err ("Tx to contract failed " ++ env.failure_reason), Option.some signed)

/-- The CLI subcommand (main.rs:201-209). -/
inductive Command
  | all
  | contract
  | storage
deriving DecidableEq, Repr

/-- The parsed CLI options the control flow depends on (main.rs:211-223);
key handling and configuration loading are out of scope. -/
structure Opt where
  last_correct_block : Nat
  command : Command
deriving DecidableEq, Repr

/-- The external state read by `main`: the stored block rows, the last
committed confirmed block, the last verified confirmed block, and the
outcomes of the contract interaction. -/
structure MainEnv where
  storageBlocks : Nat → Option Block
  last_commited_block : Nat
  last_verified_block : Nat
  contract : ContractEnv

/-- The part of `main` (main.rs:269-291) after the verified-block guard:
compute `blocks_to_revert` (`u32` subtraction) and dispatch on the subcommand,
running the contract revert and/or the storage revert. -/
def main_body (opt : Opt) (env : MainEnv) : RunOutcome × Effects :=
  let blocks_to_revert := sub32 env.last_commited_block opt.last_correct_block
  let last_block := opt.last_correct_block
  match opt.command with
  | Command.all =>
    match get_blocks env.storageBlocks env.last_commited_block blocks_to_revert with
    | Except.error msg => (RunOutcome.panic msg, Effects.empty)
    | Except.ok blocks =>
      match revert_blocks_on_contract env.contract blocks with
      | (RunOutcome.ok, sent) => (RunOutcome.ok, ⟨sent, Option.some last_block⟩)
      | (out, sent) => (out, ⟨sent, Option.none⟩)
  | Command.contract =>
    match get_blocks env.storageBlocks env.last_commited_block blocks_to_revert with
    | Except.error msg => (RunOutcome.panic msg, Effects.empty)
    | Except.ok blocks =>
      match revert_blocks_on_contract env.contract blocks with
      | (out, sent) => (out, ⟨sent, Option.none⟩)
  | Command.storage => (RunOutcome.ok, ⟨Option.none, Option.some last_block⟩)

/-- `main` (main.rs:249-291) from the point where the committed and verified
block heights have been read: the `ensure!` guard
`*last_verified_block <= opt.last_correct_block` aborts with
"Some blocks to revert are already verified", otherwise the body runs. -/
def main_run (opt : Opt) (env : MainEnv) : RunOutcome × Effects :=
  if env.last_verified_block ≤ opt.last_correct_block then main_body opt env
  else (RunOutcome.err "Some blocks to revert are already verified", Effects.empty)

end BlockRevert

namespace DataRestore

/-- `StorageUpdateState` (data_restore_driver.rs:33-38): the tri-valued
persisted checkpoint. -/
inductive StorageUpdateState
  | None
  | Events
  | Operations
deriving DecidableEq, Repr

/-- A block event as consumed by the driver: the driver reads only `block_num`
and `transaction_hash` of the events returned by
`get_only_verified_committed_events`. The transaction hash is abstracted to a
number. -/
structure BlockEvent where
  block_num : Nat
  transaction_hash : Nat
deriving DecidableEq, Repr

/-- A decoded rollup operations block as consumed by the driver: its L2 block
number plus an abstract payload standing for the operations, fee account,
timestamp and contract version (`rollup_ops.rs` is not under `src/`). -/
structure RollupOpsBlock where
  block_num : Nat
  payload : Nat
deriving DecidableEq, Repr

/-- `HashMap` insert: replaces any binding of the key. -/
def hmInsert (m : List (Nat × RollupOpsBlock)) (k : Nat) (v : RollupOpsBlock) :
    List (Nat × RollupOpsBlock) :=
  (m.filter (fun kv => kv.1 ≠ k)) ++ [(k, v)]

/-- `blocks.into_iter().map(|block| (block.block_num, block)).collect()`:
a map from the fetched blocks keyed by their block number (later duplicates
shadow earlier ones, as in `HashMap`). -/
def hmCollect (bs : List RollupOpsBlock) : List (Nat × RollupOpsBlock) :=
  bs.foldl (fun m b => hmInsert m b.block_num b) []

/-- `HashMap` lookup. -/
def hmGet (m : List (Nat × RollupOpsBlock)) (k : Nat) : Option RollupOpsBlock :=
  (m.find? (fun kv => kv.1 == k)).map (fun kv => kv.2)

/-- Deleting the binding of a key, the second half of `HashMap::remove`. -/
def hmErase (m : List (Nat × RollupOpsBlock)) (k : Nat) : List (Nat × RollupOpsBlock) :=
  m.filter (fun kv => kv.1 ≠ k)

/-- The `for` loop of `get_new_operation_blocks_from_events`
(data_restore_driver.rs:534-571): walk the filtered events carrying
`last_event_tx_hash`, the single-tx block cache `last_tx_blocks` and
`last_processed_block`; skip events at or below `last_processed_block`,
re-fetch the cache when the transaction hash changes, and take
(`HashMap::remove`) the cached block for the event's block number, panicking
with "Block not found" when it is absent. -/
def get_new_operation_blocks_go (fetch : BlockEvent → List RollupOpsBlock) :
    List BlockEvent → Option Nat → List (Nat × RollupOpsBlock) → Nat →
    Except String (List RollupOpsBlock)
  | [], _, _, _ => Except.ok []
  | e :: rest, lastTx, cache, lastProc =>
    if e.block_num ≤ lastProc then
      get_new_operation_blocks_go fetch rest lastTx cache lastProc
    else
      let refresh : Bool := lastTx = Option.some e.transaction_hash
      let lastTx' := if refresh then lastTx else Option.some e.transaction_hash
      let cache' := if refresh then cache else hmCollect (fetch e)
      match hmGet cache' e.block_num with
      | Option.none => Except.error "Block not found"
      | Option.some b =>
        match get_new_operation_blocks_go fetch rest lastTx' (hmErase cache' e.block_num)
            e.block_num with
        | Except.ok bs => Except.ok (b :: bs)
        | Except.error msg => Except.error msg

/-- `get_new_operation_blocks_from_events` (data_restore_driver.rs:522-574):
filter the verified-and-committed events down to those with
`block_num > tree_state.block_number`, then run the loop with
`last_processed_block` initialised to the tree's block number. The events
state and the per-event fetch of decoded blocks
(`RollupOpsBlock::get_rollup_ops_blocks`) are parameters. -/
def get_new_operation_blocks_from_events (treeBlock : Nat)
    (verifiedCommittedEvents : List BlockEvent)
    (fetch : BlockEvent → List RollupOpsBlock) : Except String (List RollupOpsBlock) :=
  get_new_operation_blocks_go fetch
    (verifiedCommittedEvents.filter (fun bl => treeBlock < bl.block_num))
    Option.none [] treeBlock

/-- Modelled from the spec: `TreeState::update_tree_states_from_ops_block`
(`tree_state.rs` is not under `src/`). "TreeState is mutated only by applying
a RollupOpsBlock whose `block_num` equals the current block_number + 1" and
each applied ops-block advances `tree.block_number` by exactly 1; any other
block (or an internal failure) is an error. Only the block-number transition
is represented. -/
def update_tree_states_from_ops_block (treeBlock : Nat) (b : RollupOpsBlock) : Option Nat :=
  if b.block_num = treeBlock + 1 then Option.some b.block_num else Option.none

/-- The loop of `update_tree_state` (data_restore_driver.rs:457-474): apply
each ops block in order; the driver `expect`s success, so any failure is a
panic. Returns the tree block number after the whole batch. -/
def apply_ops_blocks (treeBlock : Nat) : List RollupOpsBlock → Option Nat
  | [] => Option.some treeBlock
  | b :: rest =>
    match update_tree_states_from_ops_block treeBlock b with
    | Option.none => Option.none
    | Option.some tb => apply_ops_blocks tb rest

/-- The tree cache row, as read by `get_cached_tree_state`: only the block
number the cached tree is at matters to the control flow modelled here. -/
structure CachedTreeState where
  current_block : Nat
deriving DecidableEq, Repr

/-- The cold tree snapshot, as read by `get_tree_state`. -/
structure TreeSnapshot where
  last_block_number : Nat
deriving DecidableEq, Repr

/-- Everything `load_state_from_storage` reads from storage and the chain:
the persisted checkpoint, the persisted events state (its
verified-and-committed view), the optional tree cache, the cold snapshot, the
ops blocks saved by a previous iteration, the per-event decoder, the maximal
stored priority-op serial id, and the contract's verified-block count. -/
structure LoadEnv where
  storage_state : StorageUpdateState
  events_state : List BlockEvent
  cached_tree : Option CachedTreeState
  tree_snapshot : TreeSnapshot
  saved_ops_blocks : List RollupOpsBlock
  fetch : BlockEvent → List RollupOpsBlock
  max_priority_op_serial_id : Nat
  total_verified_blocks : Nat

/-- The record of one run of `load_state_from_storage`: the tree block number
the tree was restored at, the ops blocks replayed into the tree, the ops
blocks saved by `update_operations_state` (Events branch only), the tree block
number after the replay, the returned finished flag, and whether a fresh tree
cache row was written. -/
structure LoadResult where
  initial_tree_block : Nat
  replayed_ops_blocks : List RollupOpsBlock
  saved_rollup_ops : List RollupOpsBlock
  final_tree_block : Nat
  is_finished : Bool
  wrote_tree_cache : Bool
deriving DecidableEq, Repr

/-- The tree block number `load_state_from_storage` starts from: the cached
tree when a cache row exists, else the cold snapshot
(data_restore_driver.rs:279-298). -/
def load_initial_tree_block (env : LoadEnv) : Nat :=
  match env.cached_tree with
  | Option.some cache => cache.current_block
  | Option.none => env.tree_snapshot.last_block_number

/-- `load_state_from_storage` (data_restore_driver.rs:268-338): restore the
tree (cache or snapshot), dispatch on the checkpoint — `Events` decodes ops
from the saved events via `update_operations_state` and applies them,
`Operations` loads the saved ops blocks and applies them, `None` replays
nothing — then compute the finished flag
`finite_mode && (total_verified_blocks == tree.block_number)` and write a
tree cache row when none was present. Failures (`expect`/`panic!`) are
errors. -/
def load_state_from_storage (finite_mode : Bool) (env : LoadEnv) :
    Except String LoadResult :=
  let tree0 := load_initial_tree_block env
  let is_cached := env.cached_tree.isSome
  let replayedE : Except String (List RollupOpsBlock) :=
    match env.storage_state with
    | StorageUpdateState.Events =>
      get_new_operation_blocks_from_events tree0 env.events_state env.fetch
    | StorageUpdateState.Operations => Except.ok env.saved_ops_blocks
    | StorageUpdateState.None => Except.ok []
  match replayedE with
  | Except.error msg => Except.error msg
  | Except.ok replayed =>
    match apply_ops_blocks tree0 replayed with
    | Option.none => Except.error "Updating tree state: cant update tree from operations"
    | Option.some finalTb =>
      Except.ok
        { initial_tree_block := tree0
          replayed_ops_blocks := replayed
          saved_rollup_ops :=
            match env.storage_state with
            | StorageUpdateState.Events => replayed
            | _ => []
          final_tree_block := finalTb
          is_finished := finite_mode && (env.total_verified_blocks = finalTb)
          wrote_tree_cache := !is_cached }

/-- What one iteration of the `run_state_update` loop reads from the outside:
whether `update_events_state` found new block events, the ops blocks
`update_operations_state` produced, and the contract's
`get_total_verified_blocks` answer. -/
structure IterInput where
  has_new_block_events : Bool
  new_ops_blocks : List RollupOpsBlock
  total_verified_blocks : Nat
deriving DecidableEq, Repr

/-- The result of one iteration of the `run_state_update` loop body. -/
inductive StepOut
  | next (treeBlock : Nat) (found : Bool)
  | finished (treeBlock : Nat)
  | panicked (msg : String)
deriving DecidableEq, Repr

/-- One iteration of the `run_state_update` loop body
(data_restore_driver.rs:344-411): when there are new block events and a
non-empty batch of new ops blocks, apply the batch to the tree
(`expect` on failure), record whether the configured final hash equals the
tree root hash after the batch, and — in finite mode, when the tree height
equals the contract's verified count — panic with
"Final hash was not met during the state restoring process" if a final hash
is configured but was never met, else exit the loop. `root_of` gives the tree
root hash (abstracted to a number) as a function of the tree block height. -/
def run_state_update_step (finite_mode : Bool) (final_hash : Option Nat)
    (root_of : Nat → Nat) (inp : IterInput) (treeBlock : Nat) (found : Bool) : StepOut :=
  if inp.has_new_block_events then
    if inp.new_ops_blocks.isEmpty then StepOut.next treeBlock found
    else
      match apply_ops_blocks treeBlock inp.new_ops_blocks with
      | Option.none => StepOut.panicked "Updating tree state: cant update tree from operations"
      | Option.some tb' =>
        let found' := found || (final_hash = Option.some (root_of tb'))
        if finite_mode && (tb' = inp.total_verified_blocks) then
          if final_hash.isSome && !found' then
            StepOut.panicked "Final hash was not met during the state restoring process"
          else StepOut.finished tb'
        else StepOut.next tb' found'
  else StepOut.next treeBlock found

/-- How a bounded run of the `run_state_update` loop ends: exit from the loop
at some iteration with some final tree height, a panic at some iteration, or
fuel exhaustion (the loop is still running). -/
inductive LoopOut
  | finished (iter : Nat) (treeBlock : Nat)
  | panicked (iter : Nat) (msg : String)
  | running (treeBlock : Nat) (found : Bool)
deriving DecidableEq, Repr

/-- The `run_state_update` loop, iterated for at most `fuel` iterations from
iteration index `i`, tree height `treeBlock` and final-hash flag `found`;
`env` gives the external inputs of each iteration. -/
def run_state_update_loop (finite_mode : Bool) (final_hash : Option Nat)
    (root_of : Nat → Nat) (env : Nat → IterInput) : Nat → Nat → Nat → Bool → LoopOut
  | 0, _, treeBlock, found => LoopOut.running treeBlock found
  | fuel + 1, i, treeBlock, found =>
    match run_state_update_step finite_mode final_hash root_of (env i) treeBlock found with
    | StepOut.next tb' found' =>
      run_state_update_loop finite_mode final_hash root_of env fuel (i + 1) tb' found'
    | StepOut.finished tb' => LoopOut.finished i tb'
    | StepOut.panicked msg => LoopOut.panicked i msg

/-- `TokenKind` (tokens.rs:126-131). -/
inductive TokenKind
  | ERC20
  | NFT
  | None
deriving DecidableEq, Repr

/-- `Token` (tokens.rs:112-124); the contract address is abstracted to a
number. -/
structure Token where
  id : Nat
  address : Nat
  symbol : String
  decimals : Nat
  kind : TokenKind
  is_nft : Bool
deriving DecidableEq, Repr

/-- `Token::new` (tokens.rs:140-149): `is_nft` is `matches!(kind, TokenKind::NFT)`. -/
def Token.new (id address : Nat) (symbol : String) (decimals : Nat) (kind : TokenKind) : Token :=
  { id := id, address := address, symbol := symbol, decimals := decimals, kind := kind
    is_nft := match kind with | TokenKind.NFT => true | _ => false }

/-- An account update journal entry, as produced by `set_genesis_state`:
either a `Create` or an `UpdateBalance` (with old/new nonce and the token's
old and new balance). -/
inductive AccountUpdate
  | Create (address : Nat) (nonce : Nat)
  | UpdateBalance (old_nonce new_nonce : Nat) (token old_balance new_balance : Nat)
deriving DecidableEq, Repr

/-- An L2 account: address (abstracted to a number), nonce and balance map. -/
structure Account where
  address : Nat
  nonce : Nat
  balances : List (Nat × Nat)
deriving DecidableEq, Repr

/-- Modelled from the spec: `zksync_types::Account::create_account` is not
under `src/`; a fresh account has the given address, zero nonce and no
balances, and the accompanying update journal is the one `Create` entry. -/
def Account.create_account (id : Nat) (address : Nat) :
    Account × List (Nat × AccountUpdate) :=
  (⟨address, 0, []⟩, [(id, AccountUpdate.Create address 0)])

/-- Modelled from the spec: `Account::set_balance` sets the balance of the
given token, replacing any previous entry. -/
def Account.set_balance (a : Account) (token amount : Nat) : Account :=
  { a with balances := (a.balances.filter (fun kv => kv.1 ≠ token)) ++ [(token, amount)] }

/-- The balance of a token in an account (0 when absent). -/
def Account.get_balance (a : Account) (token : Nat) : Nat :=
  ((a.balances.find? (fun kv => kv.1 == token)).map (fun kv => kv.2)).getD 0

/-- `AccountMap` insert (a `BTreeMap` insert): replaces any binding of the id. -/
def amInsert (m : List (Nat × Account)) (k : Nat) (v : Account) : List (Nat × Account) :=
  (m.filter (fun kv => kv.1 ≠ k)) ++ [(k, v)]

/-- `AccountMap` lookup. -/
def amGet (m : List (Nat × Account)) (k : Nat) : Option Account :=
  (m.find? (fun kv => kv.1 == k)).map (fun kv => kv.2)

/-- The reserved ids and addresses from `zksync_crypto::params` used by
`set_genesis_state`; they are not under `src/`, so they are kept abstract as
parameters. -/
structure GenesisParams where
  NFT_TOKEN_ID : Nat
  NFT_STORAGE_ACCOUNT_ID : Nat
  NFT_STORAGE_ACCOUNT_ADDRESS : Nat
  MIN_NFT_TOKEN_ID : Nat
deriving DecidableEq, Repr

/-- The arguments of the `TreeState::load` call that builds the genesis tree
(cold build from a snapshot): block number, account map, unprocessed
priority-op counter and fee account id. -/
structure TreeStateLoad where
  current_block : Nat
  account_map : List (Nat × Account)
  unprocessed_priority_op : Nat
  fee_acc_id : Nat
deriving DecidableEq, Repr

/-- The record of one run of `set_genesis_state`: what was written to storage
(events-state row, the special token, the genesis account updates) and the
tree the driver keeps. -/
structure GenesisOutcome where
  saved_last_watched_block : Nat
  saved_special_token : Token
  saved_genesis_account_updates : List (Nat × AccountUpdate)
  tree_state : TreeStateLoad
deriving DecidableEq, Repr

/-- `set_genesis_state` (data_restore_driver.rs:169-249): save an empty
events state at the genesis L1 block, save the special token
`Token::new(NFT_TOKEN_ID, NFT_STORAGE_ACCOUNT_ADDRESS, "SPECIAL", 18, NFT)`,
insert the fee account at id 0 and the NFT-custody account (a fresh account at
`NFT_STORAGE_ACCOUNT_ID` whose balance of `NFT_TOKEN_ID` is set to
`MIN_NFT_TOKEN_ID`), journal the three account updates, and build the tree
with `TreeState::load(0, account_map, 0, 0)`. -/
def set_genesis_state (p : GenesisParams) (genesis_eth_block_number : Nat)
    (genesis_fee_account : Account) : GenesisOutcome :=
  let special_token :=
    Token.new p.NFT_TOKEN_ID p.NFT_STORAGE_ACCOUNT_ADDRESS "SPECIAL" 18 TokenKind.NFT
  let account_updates0 : List (Nat × AccountUpdate) :=
    [(0, AccountUpdate.Create genesis_fee_account.address genesis_fee_account.nonce)]
  let account_map0 := amInsert [] 0 genesis_fee_account
  let created := Account.create_account p.NFT_STORAGE_ACCOUNT_ID p.NFT_STORAGE_ACCOUNT_ADDRESS
  let special_account := (created.1).set_balance p.NFT_TOKEN_ID p.MIN_NFT_TOKEN_ID
  let account_updates :=
    account_updates0 ++
      [created.2.getD 0 (0, AccountUpdate.Create 0 0)] ++
      [(p.NFT_STORAGE_ACCOUNT_ID,
        AccountUpdate.UpdateBalance special_account.nonce special_account.nonce
          p.NFT_TOKEN_ID 0 p.MIN_NFT_TOKEN_ID)]
  let account_map := amInsert account_map0 p.NFT_STORAGE_ACCOUNT_ID special_account
  { saved_last_watched_block := genesis_eth_block_number
    saved_special_token := special_token
    saved_genesis_account_updates := account_updates
    tree_state :=
      { current_block := 0
        account_map := account_map
        unprocessed_priority_op := 0
        fee_acc_id := 0 } }

end DataRestore

namespace BlockRevert

theorem sub32_eq_sub (a b : Nat) (hb : b ≤ a) (ha : a < U32MOD) : sub32 a b = a - b := by
  unfold sub32 U32MOD at *
  omega

theorem add32_eq_add (a b : Nat) (h : a + b < U32MOD) : add32 a b = a + b := by
  unfold add32 U32MOD at *
  omega

theorem get_blocks_go_ok (storage : Nat → Option Block) (blockAt : Nat → Block) :
    ∀ nums : List Nat, (∀ n ∈ nums, storage n = Option.some (blockAt n)) →
      get_blocks_go storage nums = Except.ok (nums.map blockAt)
  | [], _ => rfl
  | n :: rest, h => by
    have hn := h n (List.mem_cons_self n rest)
    have hr := get_blocks_go_ok storage blockAt rest (fun m hm => h m (List.mem_cons_of_mem n hm))
    simp [get_blocks_go, hn, hr]

theorem get_blocks_go_error (storage : Nat → Option Block) (n : Nat) (rest : List Nat)
    (hmiss : storage n = Option.none) :
    ∀ pre : List Nat, (∀ m ∈ pre, (storage m).isSome) →
      get_blocks_go storage (pre ++ n :: rest) =
        Except.error ("No block " ++ toString n ++ " in storage")
  | [], _ => by simp [get_blocks_go, hmiss]
  | m :: pre, h => by
    obtain ⟨b, hb⟩ := Option.isSome_iff_exists.mp (h m (List.mem_cons_self m pre))
    have hr := get_blocks_go_error storage n rest hmiss pre
      (fun x hx => h x (List.mem_cons_of_mem m hx))
    simp [get_blocks_go, hb, hr]

theorem get_blocks_range (storage : Nat → Option Block) (lcom lc : Nat)
    (h1 : lc < lcom) (h2 : lcom < U32MOD) :
    get_blocks storage lcom (sub32 lcom lc) =
      get_blocks_go storage ((List.range' (lc + 1) (lcom - lc)).reverse) := by
  unfold U32MOD at h2
  have harith : add32 (sub32 lcom (sub32 lcom lc)) 1 = lc + 1 := by
    unfold sub32 add32 U32MOD
    omega
  simp only [get_blocks, revRangeIncl]
  rw [harith, if_pos (by omega : lc + 1 ≤ lcom)]
  have hlen : lcom - (lc + 1) + 1 = lcom - lc := by omega
  rw [hlen]

theorem revert_on_contract_sent_tx (env : ContractEnv) (blocks : List Block)
    (hsign : env.sign_ok = true) (hsend : env.send_ok = true) :
    (revert_blocks_on_contract env blocks).2 =
      Option.some ⟨"revertBlocks", blocks.map stored_block_info,
        200000 + 15000 * blocks.length⟩ := by
  unfold revert_blocks_on_contract
  rw [hsign, hsend]
  simp only [not_true, if_false]
  cases env.receipt with
  | none => rfl
  | some status =>
    by_cases hn : env.nonce_fetch_ok <;> cases status <;> simp [hn]

/-- C1: if the last verified confirmed block is greater than the supplied
`last_correct_block`, the reverter aborts with "Some blocks to revert are
already verified" before any contract call or storage mutation; if the last
verified block is at most `last_correct_block`, the check passes and the run
proceeds with the body of `main`. -/
theorem revert_verified_block_guard (opt : Opt) (env : MainEnv) :
    (opt.last_correct_block < env.last_verified_block →
      main_run opt env =
        (RunOutcome.err "Some blocks to revert are already verified", Effects.empty)) ∧
    (env.last_verified_block ≤ opt.last_correct_block →
      main_run opt env = main_body opt env) := by
  constructor
  · intro h
    unfold main_run
    rw [if_neg (Nat.not_le.mpr h)]
  · intro h
    unfold main_run
    rw [if_pos h]

/-- Witness for C1: with `last_verified = 12` and `--last-correct-block 10`
the run aborts with no effects; with `last_verified = 10` it proceeds. -/
theorem revert_verified_block_guard_witness :
    main_run ⟨10, Command.contract⟩
      { storageBlocks := fun n => Option.some ⟨n, 0⟩, last_commited_block := 15,
        last_verified_block := 12, contract := ⟨true, true, Option.some true, true, ""⟩ } =
      (RunOutcome.err "Some blocks to revert are already verified", Effects.empty) ∧
    main_run ⟨10, Command.contract⟩
      { storageBlocks := fun n => Option.some ⟨n, 0⟩, last_commited_block := 15,
        last_verified_block := 10, contract := ⟨true, true, Option.some true, true, ""⟩ } =
      main_body ⟨10, Command.contract⟩
        { storageBlocks := fun n => Option.some ⟨n, 0⟩, last_commited_block := 15,
          last_verified_block := 10, contract := ⟨true, true, Option.some true, true, ""⟩ } :=
  ⟨(revert_verified_block_guard _ _).1 (by decide),
   (revert_verified_block_guard _ _).2 (by decide)⟩

/-- C2 counterexample: with `last_committed = last_verified = 10` and
`--last-correct-block 10` (so `last_committed > last_correct` fails), the run
is NOT a no-op abort: it completes with exit code 0 and submits a
`revertBlocks` contract call with an empty block array. There is no
`last_committed_block > last_correct_block` check in `main`. -/
theorem revert_equal_blocks_calls_contract_cex :
    main_run ⟨10, Command.contract⟩
      { storageBlocks := fun n => Option.some ⟨n, 0⟩, last_commited_block := 10,
        last_verified_block := 10, contract := ⟨true, true, Option.some true, true, ""⟩ } =
      (RunOutcome.ok, ⟨Option.some ⟨"revertBlocks", [], 200000⟩, Option.none⟩) := by
  decide

/-- C2 amended: `main` checks no `last_committed_block > last_correct_block`
precondition. When `last_correct_block` equals the last committed block (and
the verified-block guard passes), the run proceeds: the block range to revert
is empty and a `revertBlocks` transaction with an empty argument array and gas
limit 200000 is still signed and submitted (in `All` and `Contract` modes). -/
theorem revert_equal_blocks_calls_contract (opt : Opt) (env : MainEnv)
    (hv : env.last_verified_block ≤ opt.last_correct_block)
    (he : env.last_commited_block = opt.last_correct_block)
    (hw : opt.last_correct_block + 1 < U32MOD)
    (hc : opt.command ≠ Command.storage)
    (hsign : env.contract.sign_ok = true) (hsend : env.contract.send_ok = true) :
    (main_run opt env).2.sent_tx = Option.some ⟨"revertBlocks", [], 200000⟩ := by
  unfold U32MOD at hw
  have hrange : get_blocks env.storageBlocks env.last_commited_block
      (sub32 env.last_commited_block opt.last_correct_block) = Except.ok [] := by
    rw [he]
    have harith : add32 (sub32 opt.last_correct_block
        (sub32 opt.last_correct_block opt.last_correct_block)) 1 =
        opt.last_correct_block + 1 := by
      unfold sub32 add32 U32MOD
      omega
    simp only [get_blocks, revRangeIncl]
    rw [harith, if_neg (by omega : ¬ opt.last_correct_block + 1 ≤ opt.last_correct_block)]
    rfl
  have hsent := revert_on_contract_sent_tx env.contract [] hsign hsend
  unfold main_run
  rw [if_pos hv]
  simp only [main_body]
  cases hcmd : opt.command with
  | storage => exact absurd hcmd hc
  | all =>
    rw [hrange]
    dsimp only
    rcases hrc : revert_blocks_on_contract env.contract [] with ⟨out, sent⟩
    rw [hrc] at hsent
    cases out <;> simpa using hsent
  | contract =>
    rw [hrange]
    dsimp only
    rcases hrc : revert_blocks_on_contract env.contract [] with ⟨out, sent⟩
    rw [hrc] at hsent
    cases out <;> simpa using hsent

/-- Witness for the amended C2: the counterexample scenario instantiates it. -/
theorem revert_equal_blocks_calls_contract_witness :
    (main_run ⟨10, Command.all⟩
      { storageBlocks := fun n => Option.some ⟨n, 0⟩, last_commited_block := 10,
        last_verified_block := 10,
        contract := ⟨true, true, Option.some true, true, ""⟩ }).2.sent_tx =
      Option.some ⟨"revertBlocks", [], 200000⟩ :=
  revert_equal_blocks_calls_contract _ _ (by decide) (by decide) (by decide)
    (by decide) (by decide) (by decide)

/-- C3: whenever `last_correct_block < last_committed_block` (and every block
in the range is stored), the argument array of the submitted `revertBlocks`
call is exactly the descriptors of the stored blocks with numbers in
`(last_correct_block, last_committed_block]`, in strictly descending block
order (the reverse of the ascending range). -/
theorem revert_call_args_descending (opt : Opt) (env : MainEnv) (blockAt : Nat → Block)
    (hv : env.last_verified_block ≤ opt.last_correct_block)
    (hlt : opt.last_correct_block < env.last_commited_block)
    (hw : env.last_commited_block < U32MOD)
    (hs : ∀ n, opt.last_correct_block < n → n ≤ env.last_commited_block →
      env.storageBlocks n = Option.some (blockAt n))
    (hc : opt.command ≠ Command.storage)
    (hsign : env.contract.sign_ok = true) (hsend : env.contract.send_ok = true) :
    ((main_run opt env).2.sent_tx).map SignedTx.args =
      Option.some (((List.range' (opt.last_correct_block + 1)
          (env.last_commited_block - opt.last_correct_block)).reverse).map
        (fun n => stored_block_info (blockAt n))) := by
  have hmem : ∀ n ∈ (List.range' (opt.last_correct_block + 1)
      (env.last_commited_block - opt.last_correct_block)).reverse,
      env.storageBlocks n = Option.some (blockAt n) := by
    intro n hn
    rw [List.mem_reverse, List.mem_range'_1] at hn
    exact hs n (by omega) (by omega)
  have hrange := get_blocks_range env.storageBlocks env.last_commited_block
    opt.last_correct_block hlt hw
  have hok := get_blocks_go_ok env.storageBlocks blockAt _ hmem
  have hblocks : get_blocks env.storageBlocks env.last_commited_block
      (sub32 env.last_commited_block opt.last_correct_block) =
      Except.ok (((List.range' (opt.last_correct_block + 1)
        (env.last_commited_block - opt.last_correct_block)).reverse).map blockAt) := by
    rw [hrange, hok]
  have hsent := revert_on_contract_sent_tx env.contract
    (((List.range' (opt.last_correct_block + 1)
      (env.last_commited_block - opt.last_correct_block)).reverse).map blockAt) hsign hsend
  unfold main_run
  rw [if_pos hv]
  simp only [main_body]
  cases hcmd : opt.command with
  | storage => exact absurd hcmd hc
  | all =>
    rw [hblocks]
    dsimp only
    rcases hrc : revert_blocks_on_contract env.contract _ with ⟨out, sent⟩
    rw [hrc] at hsent
    cases out <;> simp_all [List.map_map, Function.comp]
  | contract =>
    rw [hblocks]
    dsimp only
    rcases hrc : revert_blocks_on_contract env.contract _ with ⟨out, sent⟩
    rw [hrc] at hsent
    cases out <;> simp_all [List.map_map, Function.comp]

/-- Witness for C3: the spec's worked example, reverting to block 10 with 15
committed: descriptors of 15, 14, 13, 12, 11, in that order. -/
theorem revert_call_args_descending_witness :
    ((main_run ⟨10, Command.all⟩
      { storageBlocks := fun n => Option.some ⟨n, 2 * n⟩, last_commited_block := 15,
        last_verified_block := 10,
        contract := ⟨true, true, Option.some true, true, ""⟩ }).2.sent_tx).map SignedTx.args =
      Option.some [⟨⟨15, 30⟩⟩, ⟨⟨14, 28⟩⟩, ⟨⟨13, 26⟩⟩, ⟨⟨12, 24⟩⟩, ⟨⟨11, 22⟩⟩] := by
  have h := revert_call_args_descending ⟨10, Command.all⟩
    { storageBlocks := fun n => Option.some ⟨n, 2 * n⟩, last_commited_block := 15,
      last_verified_block := 10, contract := ⟨true, true, Option.some true, true, ""⟩ }
    (fun n => ⟨n, 2 * n⟩) (by decide) (by decide) (by decide)
    (fun n _ _ => rfl) (by decide) (by decide) (by decide)
  simpa using h

/-- C4: the gas limit of the signed `revertBlocks` transaction is exactly
`200_000 + 15_000 × n` for `n` blocks passed to the on-chain revert. -/
theorem revert_gas_limit_formula (env : ContractEnv) (blocks : List Block)
    (hsign : env.sign_ok = true) (hsend : env.send_ok = true) :
    ((revert_blocks_on_contract env blocks).2).map SignedTx.gas_limit =
      Option.some (200000 + 15000 * blocks.length) := by
  rw [revert_on_contract_sent_tx env blocks hsign hsend]
  rfl

/-- Witness for C4: five blocks give gas `275_000`, as in the spec's worked
example. -/
theorem revert_gas_limit_formula_witness :
    ((revert_blocks_on_contract ⟨true, true, Option.some true, true, ""⟩
      [⟨15, 0⟩, ⟨14, 0⟩, ⟨13, 0⟩, ⟨12, 0⟩, ⟨11, 0⟩]).2).map SignedTx.gas_limit =
      Option.some 275000 :=
  revert_gas_limit_formula ⟨true, true, Option.some true, true, ""⟩
    [⟨15, 0⟩, ⟨14, 0⟩, ⟨13, 0⟩, ⟨12, 0⟩, ⟨11, 0⟩] rfl rfl

/-- C5 counterexample: with a success-status receipt but a failing
operator-nonce fetch/store, `revert_blocks_on_contract` does NOT complete
successfully — it panics (the `expect` at main.rs:169-170) — so the revert run
is aborted, contradicting "the failure is non-fatal to the revert (the revert
still completes as successful)". -/
theorem revert_nonce_fetch_failure_cex :
    revert_blocks_on_contract ⟨true, true, Option.some true, false, ""⟩ [] =
      (RunOutcome.panic "Rootstock tx has been sent but updating operator nonce in storage has failed. You need to update it manually",
       Option.some ⟨"revertBlocks", [], 200000⟩) := by
  decide

/-- C5 amended: after a receipt is obtained — whatever its status, and before
the status is even checked — the next operator nonce is fetched and stored;
if that fetch/store fails the process panics with the actionable message
"Rootstock tx has been sent but updating operator nonce in storage has failed.
You need to update it manually" (so the run does not complete successfully and,
in `All` mode, the storage revert is skipped, though the on-chain transaction
has already been sent); if it succeeds and the receipt status is success, the
contract revert completes successfully. -/
theorem revert_nonce_fetch_behavior (env : ContractEnv) (blocks : List Block)
    (hsign : env.sign_ok = true) (hsend : env.send_ok = true) :
    (∀ status, env.receipt = Option.some status → env.nonce_fetch_ok = false →
      (revert_blocks_on_contract env blocks).1 =
        RunOutcome.panic "Rootstock tx has been sent but updating operator nonce in storage has failed. You need to update it manually") ∧
    (env.receipt = Option.some true → env.nonce_fetch_ok = true →
      (revert_blocks_on_contract env blocks).1 = RunOutcome.ok) := by
  constructor
  · intro status hr hn
    unfold revert_blocks_on_contract
    rw [hsign, hsend, hr, hn]
    simp
  · intro hr hn
    unfold revert_blocks_on_contract
    rw [hsign, hsend, hr, hn]
    simp

/-- Witness for the amended C5: both branches at concrete inputs. -/
theorem revert_nonce_fetch_behavior_witness :
    (revert_blocks_on_contract ⟨true, true, Option.some false, false, "x"⟩ []).1 =
      RunOutcome.panic "Rootstock tx has been sent but updating operator nonce in storage has failed. You need to update it manually" ∧
    (revert_blocks_on_contract ⟨true, true, Option.some true, true, "x"⟩ []).1 =
      RunOutcome.ok :=
  ⟨(revert_nonce_fetch_behavior ⟨true, true, Option.some false, false, "x"⟩ []
      rfl rfl).1 false rfl rfl,
   (revert_nonce_fetch_behavior ⟨true, true, Option.some true, true, "x"⟩ []
      rfl rfl).2 rfl rfl⟩

/-- C10: if some block number in `(last_correct_block, last_committed_block]`
has no stored block row (take the largest such number, the first the
descending fetch loop meets), `main` panics with "No block N in storage"
before any contract transaction is built or sent and before any storage row
is deleted. -/
theorem revert_missing_block_panics (opt : Opt) (env : MainEnv) (n : Nat)
    (hv : env.last_verified_block ≤ opt.last_correct_block)
    (hw : env.last_commited_block < U32MOD)
    (hn1 : opt.last_correct_block < n) (hn2 : n ≤ env.last_commited_block)
    (hmiss : env.storageBlocks n = Option.none)
    (habove : ∀ m, n < m → m ≤ env.last_commited_block → (env.storageBlocks m).isSome)
    (hc : opt.command ≠ Command.storage) :
    main_run opt env =
      (RunOutcome.panic ("No block " ++ toString n ++ " in storage"), Effects.empty) := by
  have hlt : opt.last_correct_block < env.last_commited_block := by omega
  have hsplit : (List.range' (opt.last_correct_block + 1)
      (env.last_commited_block - opt.last_correct_block)).reverse =
      (List.range' (n + 1) (env.last_commited_block - n)).reverse ++
        n :: (List.range' (opt.last_correct_block + 1) (n - (opt.last_correct_block + 1))).reverse := by
    have h1 : List.range' (opt.last_correct_block + 1)
        (env.last_commited_block - opt.last_correct_block) =
        List.range' (opt.last_correct_block + 1) (n - opt.last_correct_block) ++
          List.range' (n + 1) (env.last_commited_block - n) := by
      have happ := List.range'_append_1 (opt.last_correct_block + 1)
        (n - opt.last_correct_block) (env.last_commited_block - n)
      rw [show opt.last_correct_block + 1 + (n - opt.last_correct_block) = n + 1 by omega] at happ
      rw [happ]
      congr 1
      omega
    have h2 : List.range' (opt.last_correct_block + 1) (n - opt.last_correct_block) =
        List.range' (opt.last_correct_block + 1) (n - (opt.last_correct_block + 1)) ++ [n] := by
      have hlen : n - opt.last_correct_block = (n - (opt.last_correct_block + 1)) + 1 := by
        omega
      rw [hlen, List.range'_1_concat]
      congr 2
      omega
    rw [h1, h2]
    simp
  have herr : get_blocks env.storageBlocks env.last_commited_block
      (sub32 env.last_commited_block opt.last_correct_block) =
      Except.error ("No block " ++ toString n ++ " in storage") := by
    rw [get_blocks_range env.storageBlocks env.last_commited_block opt.last_correct_block hlt hw,
      hsplit]
    refine get_blocks_go_error env.storageBlocks n _ hmiss _ ?_
    intro m hm
    rw [List.mem_reverse, List.mem_range'_1] at hm
    exact habove m (by omega) (by omega)
  unfold main_run
  rw [if_pos hv]
  simp only [main_body]
  cases hcmd : opt.command with
  | storage => exact absurd hcmd hc
  | all =>
    rw [herr]
  | contract =>
    rw [herr]

/-- Witness for C10: block 13 missing from storage while reverting 15 down to
11 makes the run panic with "No block 13 in storage" and no effects. -/
theorem revert_missing_block_panics_witness :
    main_run ⟨10, Command.all⟩
      { storageBlocks := fun n => if n = 13 then Option.none else Option.some ⟨n, 0⟩,
        last_commited_block := 15, last_verified_block := 10,
        contract := ⟨true, true, Option.some true, true, ""⟩ } =
      (RunOutcome.panic "No block 13 in storage", Effects.empty) :=
  revert_missing_block_panics _ _ 13 (by decide) (by decide) (by decide) (by decide)
    (by decide) (fun m h1 h2 => by interval_cases m <;> decide) (by decide)

end BlockRevert

namespace DataRestore

theorem hmInsert_mem {m : List (Nat × RollupOpsBlock)} {k : Nat} {v : RollupOpsBlock}
    {kv : Nat × RollupOpsBlock} (h : kv ∈ hmInsert m k v) : kv ∈ m ∨ kv = (k, v) := by
  unfold hmInsert at h
  rcases List.mem_append.mp h with h' | h'
  · exact Or.inl (List.mem_of_mem_filter h')
  · exact Or.inr (List.mem_singleton.mp h')

theorem hmCollect_aux (bs : List RollupOpsBlock) :
    ∀ m : List (Nat × RollupOpsBlock), (∀ kv ∈ m, kv.2.block_num = kv.1) →
      ∀ kv ∈ bs.foldl (fun m b => hmInsert m b.block_num b) m, kv.2.block_num = kv.1 := by
  induction bs with
  | nil => intro m hm kv hkv; exact hm kv hkv
  | cons b rest ih =>
    intro m hm kv hkv
    refine ih (hmInsert m b.block_num b) ?_ kv hkv
    intro kv' hkv'
    rcases hmInsert_mem hkv' with h' | h'
    · exact hm kv' h'
    · rw [h']

theorem hmCollect_key (bs : List RollupOpsBlock) :
    ∀ kv ∈ hmCollect bs, kv.2.block_num = kv.1 :=
  hmCollect_aux bs [] (by intro kv h; cases h)

theorem hmGet_mem {m : List (Nat × RollupOpsBlock)} {k : Nat} {b : RollupOpsBlock}
    (h : hmGet m k = Option.some b) : (k, b) ∈ m := by
  unfold hmGet at h
  cases hf : m.find? (fun kv => kv.1 == k) with
  | none => rw [hf] at h; cases h
  | some kv =>
    rw [hf] at h
    have hmem := List.mem_of_find?_eq_some hf
    have hkey : kv.1 = k := by
      have := List.find?_some hf
      simpa using this
    have hval : kv.2 = b := by simpa using h
    have : kv = (k, b) := Prod.ext hkey hval
    rwa [this] at hmem

theorem hmErase_mem {m : List (Nat × RollupOpsBlock)} {k : Nat}
    {kv : Nat × RollupOpsBlock} (h : kv ∈ hmErase m k) : kv ∈ m :=
  List.mem_of_mem_filter h

theorem get_new_operation_blocks_go_gt (treeBlock : Nat)
    (fetch : BlockEvent → List RollupOpsBlock) :
    ∀ (evs : List BlockEvent) (lastTx : Option Nat) (cache : List (Nat × RollupOpsBlock))
      (lastProc : Nat) (bs : List RollupOpsBlock),
      (∀ kv ∈ cache, kv.2.block_num = kv.1) →
      (∀ e ∈ evs, treeBlock < e.block_num) →
      get_new_operation_blocks_go fetch evs lastTx cache lastProc = Except.ok bs →
      ∀ b ∈ bs, treeBlock < b.block_num := by
  intro evs
  induction evs with
  | nil =>
    intro lastTx cache lastProc bs _ _ h b hb
    unfold get_new_operation_blocks_go at h
    cases h
    cases hb
  | cons e rest ih =>
    intro lastTx cache lastProc bs hcache hevs h b hb
    unfold get_new_operation_blocks_go at h
    by_cases hskip : e.block_num ≤ lastProc
    · rw [if_pos hskip] at h
      exact ih lastTx cache lastProc bs hcache
        (fun x hx => hevs x (List.mem_cons_of_mem e hx)) h b hb
    · rw [if_neg hskip] at h
      simp only [] at h
      set cache' := if (lastTx = Option.some e.transaction_hash : Bool) then cache
        else hmCollect (fetch e) with hcdef
      have hcache' : ∀ kv ∈ cache', kv.2.block_num = kv.1 := by
        rw [hcdef]
        split
        · exact hcache
        · exact hmCollect_key (fetch e)
      cases hget : hmGet cache' e.block_num with
      | none => rw [hget] at h; cases h
      | some b0 =>
        rw [hget] at h
        cases hrec : get_new_operation_blocks_go fetch rest
            (if (lastTx = Option.some e.transaction_hash : Bool) then lastTx
              else Option.some e.transaction_hash)
            (hmErase cache' e.block_num) e.block_num with
        | error msg => rw [hrec] at h; cases h
        | ok bs' =>
          rw [hrec] at h
          cases h
          rcases List.mem_cons.mp hb with hb' | hb'
          · have hkey : b0.block_num = e.block_num := by
              simpa using hcache' (e.block_num, b0) (hmGet_mem hget)
            have hgt := hevs e (List.mem_cons_self e rest)
            rw [hb', hkey]
            exact hgt
          · refine ih _ _ _ bs' ?_ (fun x hx => hevs x (List.mem_cons_of_mem e hx)) hrec b hb'
            intro kv hkv
            exact hcache' kv (hmErase_mem hkv)

/-- C6: every `BlockEvent` whose `block_num` is at most the current tree block
number is skipped by `get_new_operation_blocks_from_events`, so no rollup ops
block at or below the tree's block number is ever returned (hence never
re-applied to the tree). -/
theorem restore_skips_processed_block_events (treeBlock : Nat)
    (events : List BlockEvent) (fetch : BlockEvent → List RollupOpsBlock)
    (bs : List RollupOpsBlock)
    (h : get_new_operation_blocks_from_events treeBlock events fetch = Except.ok bs) :
    ∀ b ∈ bs, treeBlock < b.block_num := by
  refine get_new_operation_blocks_go_gt treeBlock fetch _ Option.none [] treeBlock bs
    (by intro kv hkv; cases hkv) ?_ h
  intro e he
  rw [List.mem_filter] at he
  exact of_decide_eq_true he.2

/-- Witness for C6: with the tree at block 1 and events for blocks 1, 2, 3
(block 1 being a duplicate emission), the returned blocks are those above
block 1 only. -/
theorem restore_skips_processed_block_events_witness :
    (1 : Nat) < RollupOpsBlock.block_num ⟨2, 0⟩ :=
  restore_skips_processed_block_events 1
    [⟨1, 100⟩, ⟨2, 100⟩, ⟨3, 100⟩]
    (fun e => if e.transaction_hash = 100 then [⟨2, 0⟩, ⟨3, 0⟩] else [])
    [⟨2, 0⟩, ⟨3, 0⟩] rfl ⟨2, 0⟩ (by decide)

/-- C7: `load_state_from_storage` dispatches exactly on the persisted
checkpoint: with checkpoint `Events` the replayed ops blocks are the ones
decoded from the saved events; with `Operations` they are the previously
saved ops blocks; with `None` nothing is replayed; and in every case the
replayed blocks are the ones applied to the restored tree. -/
theorem load_state_checkpoint_dispatch (finite_mode : Bool) (env : LoadEnv)
    (res : LoadResult) (h : load_state_from_storage finite_mode env = Except.ok res) :
    res.initial_tree_block = load_initial_tree_block env ∧
    (env.storage_state = StorageUpdateState.Events →
      get_new_operation_blocks_from_events (load_initial_tree_block env) env.events_state
        env.fetch = Except.ok res.replayed_ops_blocks) ∧
    (env.storage_state = StorageUpdateState.Operations →
      res.replayed_ops_blocks = env.saved_ops_blocks) ∧
    (env.storage_state = StorageUpdateState.None → res.replayed_ops_blocks = []) ∧
    apply_ops_blocks (load_initial_tree_block env) res.replayed_ops_blocks =
      Option.some res.final_tree_block := by
  obtain ⟨st, evs, ct, ts, so, f, mp, tv⟩ := env
  cases st with
  | Events =>
    simp only [load_state_from_storage, load_initial_tree_block] at h ⊢
    generalize htree : (match ct with
      | Option.some cache => cache.current_block
      | Option.none => ts.last_block_number) = tree0 at h ⊢
    cases hdec : get_new_operation_blocks_from_events tree0 evs f with
    | error msg => rw [hdec] at h; cases h
    | ok replayed =>
      rw [hdec] at h
      dsimp only at h
      cases happ : apply_ops_blocks tree0 replayed with
      | none => rw [happ] at h; cases h
      | some finalTb =>
        rw [happ] at h
        cases h
        exact ⟨rfl, fun _ => rfl, fun hbad => absurd hbad (by decide),
          fun hbad => absurd hbad (by decide), happ⟩
  | Operations =>
    simp only [load_state_from_storage, load_initial_tree_block] at h ⊢
    generalize htree : (match ct with
      | Option.some cache => cache.current_block
      | Option.none => ts.last_block_number) = tree0 at h ⊢
    dsimp only at h
    cases happ : apply_ops_blocks tree0 so with
    | none => rw [happ] at h; cases h
    | some finalTb =>
      rw [happ] at h
      cases h
      exact ⟨rfl, fun hbad => absurd hbad (by decide), fun _ => rfl,
        fun hbad => absurd hbad (by decide), happ⟩
  | None =>
    simp only [load_state_from_storage, load_initial_tree_block, apply_ops_blocks] at h ⊢
    generalize htree : (match ct with
      | Option.some cache => cache.current_block
      | Option.none => ts.last_block_number) = tree0 at h ⊢
    cases h
    exact ⟨rfl, fun hbad => absurd hbad (by decide), fun hbad => absurd hbad (by decide),
      fun _ => rfl, rfl⟩

/-- Witness for C7: a concrete `Operations`-checkpoint load replays the saved
ops block and applies it to the cached tree. -/
theorem load_state_checkpoint_dispatch_witness :
    LoadResult.replayed_ops_blocks
        ⟨2, [⟨3, 7⟩], [], 3, true, false⟩ = [(⟨3, 7⟩ : RollupOpsBlock)] :=
  (load_state_checkpoint_dispatch true
    { storage_state := StorageUpdateState.Operations,
      events_state := [], cached_tree := Option.some ⟨2⟩, tree_snapshot := ⟨0⟩,
      saved_ops_blocks := [⟨3, 7⟩], fetch := fun _ => [],
      max_priority_op_serial_id := 5, total_verified_blocks := 3 }
    ⟨2, [⟨3, 7⟩], [], 3, true, false⟩ rfl).2.2.1 rfl

/-- C8: after `set_genesis_state`, the tree is built with `TreeState::load` at
block number 0 from an account map containing exactly two accounts — the fee
account at id 0 (the supplied genesis account, hence with the configured
address) and the NFT-custody account at `NFT_STORAGE_ACCOUNT_ID` whose
balance of `NFT_TOKEN_ID` equals `MIN_NFT_TOKEN_ID` — and the special token
saved to storage is `{id := NFT_TOKEN_ID, symbol := "SPECIAL",
decimals := 18}` of NFT kind. (The reserved custody id is nonzero.) -/
theorem genesis_accounts_and_special_token (p : GenesisParams)
    (genesis_eth_block_number : Nat) (genesis_fee_account : Account)
    (hne : p.NFT_STORAGE_ACCOUNT_ID ≠ 0) :
    (set_genesis_state p genesis_eth_block_number genesis_fee_account).tree_state.current_block
        = 0 ∧
    ((set_genesis_state p genesis_eth_block_number
        genesis_fee_account).tree_state.account_map.map Prod.fst)
      = [0, p.NFT_STORAGE_ACCOUNT_ID] ∧
    amGet (set_genesis_state p genesis_eth_block_number
        genesis_fee_account).tree_state.account_map 0 = Option.some genesis_fee_account ∧
    (∃ sa, amGet (set_genesis_state p genesis_eth_block_number
          genesis_fee_account).tree_state.account_map p.NFT_STORAGE_ACCOUNT_ID
        = Option.some sa ∧ sa.get_balance p.NFT_TOKEN_ID = p.MIN_NFT_TOKEN_ID) ∧
    (set_genesis_state p genesis_eth_block_number genesis_fee_account).saved_special_token =
      ⟨p.NFT_TOKEN_ID, p.NFT_STORAGE_ACCOUNT_ADDRESS, "SPECIAL", 18, TokenKind.NFT, true⟩ := by
  have h0 : (0 : Nat) ≠ p.NFT_STORAGE_ACCOUNT_ID := Ne.symm hne
  refine ⟨rfl, ?_, ?_, ?_, rfl⟩
  · simp [set_genesis_state, amInsert, h0]
  · simp [set_genesis_state, amInsert, amGet, h0]
  · refine ⟨(Account.create_account p.NFT_STORAGE_ACCOUNT_ID
      p.NFT_STORAGE_ACCOUNT_ADDRESS).1.set_balance p.NFT_TOKEN_ID p.MIN_NFT_TOKEN_ID, ?_, ?_⟩
    · simp [set_genesis_state, amInsert, amGet, h0]
    · simp [Account.create_account, Account.set_balance, Account.get_balance]

/-- Witness for C8: the genesis scenario at the concrete reserved ids of the
implementation (`NFT_TOKEN_ID = 2147483646`, custody account id `16777215`,
`MIN_NFT_TOKEN_ID = 65536`). -/
theorem genesis_accounts_and_special_token_witness :
    (set_genesis_state ⟨2147483646, 16777215, 999, 65536⟩ 4000
        ⟨17, 3, []⟩).tree_state.current_block = 0 ∧
    ((set_genesis_state ⟨2147483646, 16777215, 999, 65536⟩ 4000
        ⟨17, 3, []⟩).tree_state.account_map.map Prod.fst) = [0, 16777215] ∧
    amGet (set_genesis_state ⟨2147483646, 16777215, 999, 65536⟩ 4000
        ⟨17, 3, []⟩).tree_state.account_map 0 = Option.some ⟨17, 3, []⟩ ∧
    (∃ sa, amGet (set_genesis_state ⟨2147483646, 16777215, 999, 65536⟩ 4000
          ⟨17, 3, []⟩).tree_state.account_map 16777215 = Option.some sa ∧
        sa.get_balance 2147483646 = 65536) ∧
    (set_genesis_state ⟨2147483646, 16777215, 999, 65536⟩ 4000
        ⟨17, 3, []⟩).saved_special_token =
      ⟨2147483646, 999, "SPECIAL", 18, TokenKind.NFT, true⟩ :=
  genesis_accounts_and_special_token ⟨2147483646, 16777215, 999, 65536⟩ 4000 ⟨17, 3, []⟩
    (by decide)

theorem apply_ops_blocks_le : ∀ (l : List RollupOpsBlock) (tb tb' : Nat),
    apply_ops_blocks tb l = Option.some tb' → tb ≤ tb'
  | [], tb, tb', h => by
    unfold apply_ops_blocks at h
    cases h
    exact Nat.le_refl tb
  | b :: rest, tb, tb', h => by
    unfold apply_ops_blocks update_tree_states_from_ops_block at h
    by_cases hb : b.block_num = tb + 1
    · rw [if_pos hb] at h
      have hrec := apply_ops_blocks_le rest b.block_num tb' h
      omega
    · rw [if_neg hb] at h
      cases h

theorem apply_ops_blocks_lt (b : RollupOpsBlock) (rest : List RollupOpsBlock)
    (tb tb' : Nat) (h : apply_ops_blocks tb (b :: rest) = Option.some tb') : tb < tb' := by
  unfold apply_ops_blocks update_tree_states_from_ops_block at h
  by_cases hb : b.block_num = tb + 1
  · rw [if_pos hb] at h
    have hrec := apply_ops_blocks_le rest b.block_num tb' h
    omega
  · rw [if_neg hb] at h
    cases h

theorem step_finished_inv (final_hash : Option Nat) (root_of : Nat → Nat)
    (inp : IterInput) (tb : Nat) (found : Bool) (tb' : Nat)
    (h : run_state_update_step true final_hash root_of inp tb found = StepOut.finished tb') :
    inp.has_new_block_events = true ∧ inp.new_ops_blocks ≠ [] ∧
    apply_ops_blocks tb inp.new_ops_blocks = Option.some tb' ∧
    tb' = inp.total_verified_blocks ∧
    (final_hash.isSome = true →
      (found = true ∨ final_hash = Option.some (root_of tb'))) := by
  rw [run_state_update_step] at h
  cases hev : inp.has_new_block_events with
  | false => rw [hev] at h; cases h
  | true =>
    rw [hev, if_pos rfl] at h
    cases hops : inp.new_ops_blocks with
    | nil => rw [hops] at h; cases h
    | cons b rest =>
      rw [hops] at h
      simp only [List.isEmpty_cons, Bool.false_eq_true, if_false] at h
      cases happ : apply_ops_blocks tb (b :: rest) with
      | none => rw [happ] at h; cases h
      | some tb0 =>
        rw [happ] at h
        dsimp only at h
        by_cases hbrk : (true && decide (tb0 = inp.total_verified_blocks)) = true
        · rw [if_pos hbrk] at h
          by_cases hpn : (final_hash.isSome &&
              !(found || decide (final_hash = Option.some (root_of tb0)))) = true
          · rw [if_pos hpn] at h
            cases h
          · rw [if_neg hpn] at h
            cases h
            refine ⟨rfl, by simp, rfl, by simpa using hbrk, fun hsome => ?_⟩
            cases hor : (found || decide (final_hash = Option.some (root_of tb'))) with
            | false =>
              refine absurd ?_ hpn
              rw [hsome, hor]
              rfl
            | true =>
              rcases (by simpa using hor :
                  found = true ∨ final_hash = Option.some (root_of tb')) with hf | hf
              · exact Or.inl hf
              · exact Or.inr hf
        · rw [if_neg hbrk] at h
          cases h

theorem step_exit_or_assert (final_hash : Option Nat) (root_of : Nat → Nat)
    (inp : IterInput) (tb : Nat) (found : Bool) (tb' : Nat)
    (hev : inp.has_new_block_events = true) (hne : inp.new_ops_blocks ≠ [])
    (happ : apply_ops_blocks tb inp.new_ops_blocks = Option.some tb')
    (hver : tb' = inp.total_verified_blocks) :
    run_state_update_step true final_hash root_of inp tb found = StepOut.finished tb' ∨
    run_state_update_step true final_hash root_of inp tb found =
      StepOut.panicked "Final hash was not met during the state restoring process" := by
  rw [run_state_update_step, hev, if_pos rfl]
  rcases hops : inp.new_ops_blocks with _ | ⟨b, rest⟩
  · exact absurd hops hne
  · rw [hops] at happ
    have hbrk : (true && decide (tb' = inp.total_verified_blocks)) = true := by simp [hver]
    simp only [List.isEmpty_cons, Bool.false_eq_true, if_false, happ]
    rw [if_pos hbrk]
    by_cases hpn : (final_hash.isSome &&
        !(found || decide (final_hash = Option.some (root_of tb')))) = true
    · rw [if_pos hpn]
      exact Or.inr rfl
    · rw [if_neg hpn]
      exact Or.inl rfl

theorem step_assert_panic_inv (final_hash : Option Nat) (root_of : Nat → Nat)
    (inp : IterInput) (tb : Nat) (found : Bool)
    (h : run_state_update_step true final_hash root_of inp tb found =
      StepOut.panicked "Final hash was not met during the state restoring process") :
    final_hash.isSome = true ∧ found = false ∧
    ∃ tb', apply_ops_blocks tb inp.new_ops_blocks = Option.some tb' ∧
      tb' = inp.total_verified_blocks ∧ final_hash ≠ Option.some (root_of tb') := by
  rw [run_state_update_step] at h
  cases hev : inp.has_new_block_events with
  | false => rw [hev] at h; cases h
  | true =>
    rw [hev, if_pos rfl] at h
    cases hops : inp.new_ops_blocks with
    | nil => rw [hops] at h; cases h
    | cons b rest =>
      rw [hops] at h
      simp only [List.isEmpty_cons, Bool.false_eq_true, if_false] at h
      cases happ : apply_ops_blocks tb (b :: rest) with
      | none =>
        rw [happ] at h
        dsimp only at h
        exact absurd (StepOut.panicked.inj h) (by decide)
      | some tb0 =>
        rw [happ] at h
        dsimp only at h
        by_cases hbrk : (true && decide (tb0 = inp.total_verified_blocks)) = true
        · rw [if_pos hbrk] at h
          by_cases hpn : (final_hash.isSome &&
              !(found || decide (final_hash = Option.some (root_of tb0)))) = true
          · have hsome : final_hash.isSome = true := (Bool.and_eq_true_iff.mp hpn).1
            have hflags := (Bool.and_eq_true_iff.mp hpn).2
            have hor : (found || decide (final_hash = Option.some (root_of tb0))) = false := by
              simpa using hflags
            have hfound : found = false := (Bool.or_eq_false_iff.mp hor).1
            have hdec : decide (final_hash = Option.some (root_of tb0)) = false :=
              (Bool.or_eq_false_iff.mp hor).2
            refine ⟨hsome, hfound, tb0, rfl, by simpa using hbrk, ?_⟩
            exact of_decide_eq_false hdec
          · rw [if_neg hpn] at h
            cases h
        · rw [if_neg hbrk] at h
          cases h

theorem step_next_inv (final_hash : Option Nat) (root_of : Nat → Nat)
    (inp : IterInput) (tb : Nat) (found : Bool) (tb' : Nat) (found' : Bool)
    (h : run_state_update_step true final_hash root_of inp tb found = StepOut.next tb' found') :
    tb ≤ tb' ∧ (found' = true →
      (found = true ∨ (tb < tb' ∧ final_hash = Option.some (root_of tb')))) := by
  rw [run_state_update_step] at h
  cases hev : inp.has_new_block_events with
  | false =>
    rw [hev] at h
    simp only [Bool.false_eq_true, if_false] at h
    cases h
    exact ⟨Nat.le_refl tb, fun hf => Or.inl hf⟩
  | true =>
    rw [hev, if_pos rfl] at h
    cases hops : inp.new_ops_blocks with
    | nil =>
      rw [hops] at h
      simp only [List.isEmpty_nil, if_true] at h
      cases h
      exact ⟨Nat.le_refl tb, fun hf => Or.inl hf⟩
    | cons b rest =>
      rw [hops] at h
      simp only [List.isEmpty_cons, Bool.false_eq_true, if_false] at h
      cases happ : apply_ops_blocks tb (b :: rest) with
      | none =>
        rw [happ] at h
        dsimp only at h
        cases h
      | some tb0 =>
        rw [happ] at h
        dsimp only at h
        have hlt := apply_ops_blocks_lt b rest tb tb0 happ
        by_cases hbrk : (true && decide (tb0 = inp.total_verified_blocks)) = true
        · rw [if_pos hbrk] at h
          by_cases hpn : (final_hash.isSome &&
              !(found || decide (final_hash = Option.some (root_of tb0)))) = true
          · rw [if_pos hpn] at h
            cases h
          · rw [if_neg hpn] at h
            cases h
        · rw [if_neg hbrk] at h
          cases h
          refine ⟨Nat.le_of_lt hlt, fun hf => ?_⟩
          rcases (by simpa using hf :
              found = true ∨ final_hash = Option.some (root_of tb')) with hf' | hf'
          · exact Or.inl hf'
          · exact Or.inr ⟨hlt, hf'⟩

theorem loop_finished_spec (final_hash : Option Nat) (root_of : Nat → Nat)
    (env : Nat → IterInput) :
    ∀ (fuel i treeBlock : Nat) (found : Bool) (j tbF : Nat),
      run_state_update_loop true final_hash root_of env fuel i treeBlock found =
        LoopOut.finished j tbF →
      tbF = (env j).total_verified_blocks ∧ treeBlock ≤ tbF ∧
      (∀ hh, final_hash = Option.some hh →
        found = true ∨ ∃ tbk, treeBlock < tbk ∧ tbk ≤ tbF ∧ root_of tbk = hh) := by
  intro fuel
  induction fuel with
  | zero =>
    intro i tb found j tbF h
    rw [run_state_update_loop] at h
    cases h
  | succ fuel ih =>
    intro i tb found j tbF h
    rw [run_state_update_loop] at h
    cases hstep : run_state_update_step true final_hash root_of (env i) tb found with
    | next tb' found' =>
      rw [hstep] at h
      obtain ⟨h1, h2, h3⟩ := ih (i + 1) tb' found' j tbF h
      obtain ⟨hle, hfd⟩ := step_next_inv final_hash root_of (env i) tb found tb' found' hstep
      refine ⟨h1, Nat.le_trans hle h2, fun hh hfh => ?_⟩
      rcases h3 hh hfh with hf | ⟨tbk, hk1, hk2, hk3⟩
      · rcases hfd hf with hf' | ⟨hlt, heq⟩
        · exact Or.inl hf'
        · rw [hfh] at heq
          refine Or.inr ⟨tb', hlt, h2, ?_⟩
          exact (Option.some.injEq _ _ ▸ heq : hh = root_of tb').symm
      · exact Or.inr ⟨tbk, Nat.lt_of_le_of_lt hle hk1, hk2, hk3⟩
    | finished tb0 =>
      rw [hstep] at h
      cases h
      obtain ⟨hev, hne, happ, hver, hdisj⟩ :=
        step_finished_inv final_hash root_of (env i) tb found tbF hstep
      rcases hlist : (env i).new_ops_blocks with _ | ⟨b, rest⟩
      · exact absurd hlist hne
      · rw [hlist] at happ
        have hlt := apply_ops_blocks_lt b rest tb tbF happ
        refine ⟨hver, Nat.le_of_lt hlt, fun hh hfh => ?_⟩
        rcases hdisj (by rw [hfh]; rfl) with hf | hf
        · exact Or.inl hf
        · rw [hfh] at hf
          refine Or.inr ⟨tbF, hlt, Nat.le_refl tbF, ?_⟩
          exact (Option.some.injEq _ _ ▸ hf : hh = root_of tbF).symm
    | panicked msg =>
      rw [hstep] at h
      cases h

/-- C9: in finite mode, the `run_state_update` loop exits exactly at a step
where the tree block number, after applying a non-empty batch, equals the
contract's verified-block count: (a) an exit step implies those conditions,
plus that a configured final hash was already observed or equals the root hash
after this batch; (b) whenever those conditions hold, the step leaves the loop
— either exiting or panicking with the final-hash assertion; (c) that
assertion panic happens only with a configured hash that was never observed;
(d) loop-level: exiting at iteration `j` means the final tree height equals
iteration `j`'s verified count, and a configured final hash was observed as
the tree root hash after some applied block (a height strictly between the
starting and final tree blocks). -/
theorem run_state_update_finite_termination (final_hash : Option Nat)
    (root_of : Nat → Nat) (env : Nat → IterInput) :
    (∀ inp tb found tb',
      run_state_update_step true final_hash root_of inp tb found = StepOut.finished tb' →
        inp.has_new_block_events = true ∧ inp.new_ops_blocks ≠ [] ∧
        apply_ops_blocks tb inp.new_ops_blocks = Option.some tb' ∧
        tb' = inp.total_verified_blocks ∧
        (final_hash.isSome = true →
          (found = true ∨ final_hash = Option.some (root_of tb')))) ∧
    (∀ inp tb found tb',
      inp.has_new_block_events = true → inp.new_ops_blocks ≠ [] →
      apply_ops_blocks tb inp.new_ops_blocks = Option.some tb' →
      tb' = inp.total_verified_blocks →
        run_state_update_step true final_hash root_of inp tb found = StepOut.finished tb' ∨
        run_state_update_step true final_hash root_of inp tb found =
          StepOut.panicked "Final hash was not met during the state restoring process") ∧
    (∀ inp tb found,
      run_state_update_step true final_hash root_of inp tb found =
          StepOut.panicked "Final hash was not met during the state restoring process" →
        final_hash.isSome = true ∧ found = false ∧
        ∃ tb', apply_ops_blocks tb inp.new_ops_blocks = Option.some tb' ∧
          tb' = inp.total_verified_blocks ∧ final_hash ≠ Option.some (root_of tb')) ∧
    (∀ fuel tb j tbF,
      run_state_update_loop true final_hash root_of env fuel 0 tb false =
          LoopOut.finished j tbF →
        tbF = (env j).total_verified_blocks ∧
        (∀ hh, final_hash = Option.some hh →
          ∃ tbk, tb < tbk ∧ tbk ≤ tbF ∧ root_of tbk = hh)) := by
  refine ⟨fun inp tb found tb' h => step_finished_inv final_hash root_of inp tb found tb' h,
    fun inp tb found tb' hev hne happ hver =>
      step_exit_or_assert final_hash root_of inp tb found tb' hev hne happ hver,
    fun inp tb found h => step_assert_panic_inv final_hash root_of inp tb found h,
    fun fuel tb j tbF h => ?_⟩
  obtain ⟨h1, _, h3⟩ := loop_finished_spec final_hash root_of env fuel 0 tb false j tbF h
  refine ⟨h1, fun hh hfh => ?_⟩
  rcases h3 hh hfh with hf | hex
  · cases hf
  · exact hex

/-- Witness for C9: a finite-mode run with final hash 93 and root function
`90 + height` applies batches [1, 2] and then [3], exits at iteration 2 with
tree height 3 = the verified count, and the final hash was observed at
height 3. -/
theorem run_state_update_finite_termination_witness :
    (3 : Nat) =
      ((fun i => if i = 0 then (⟨true, [⟨1, 0⟩, ⟨2, 0⟩], 3⟩ : IterInput)
        else if i = 1 then ⟨false, [], 3⟩
        else ⟨true, [⟨3, 0⟩], 3⟩) (2 : Nat)).total_verified_blocks ∧
    (∃ tbk, (0 : Nat) < tbk ∧ tbk ≤ 3 ∧ (fun tb => 90 + tb) tbk = 93) :=
  have h := (run_state_update_finite_termination (Option.some 93) (fun tb => 90 + tb)
    (fun i => if i = 0 then ⟨true, [⟨1, 0⟩, ⟨2, 0⟩], 3⟩
      else if i = 1 then ⟨false, [], 3⟩
      else ⟨true, [⟨3, 0⟩], 3⟩)).2.2.2 10 0 2 3 (by decide)
  ⟨h.1, h.2 93 rfl⟩

end DataRestore
